import Mathlib

/-!
Shallow embedding of `src/main.rs` of the `raise` run-or-raise tool.

Strings are embedded as lists of characters (`Str`), so that the substring
relations used by the matcher engine are the standard list relations
`<+:` (prefix), `<:+` (suffix) and `<:+:` (infix).  The external regex
library is embedded abstractly: a compiled `Regex` is a total-match
predicate on strings, and `is_match` is search semantics (some infix of
the value is totally matched), mirroring `regex::Regex::is_match`.
The two `hyprctl` queries and the two dispatched actions are embedded as
an oracle record and an event trace.
-/

abbrev Str := List Char

/-- Substring test, embedding Rust `str::contains`: the pattern is a prefix
of some suffix of the value. -/
def strContains (v p : Str) : Bool :=
  v.tails.any fun t => p.isPrefixOf t

/-- A compiled regular expression, embedded abstractly as its total-match
predicate (`exactMatch m` holds when the whole string `m` is matched). -/
structure Regex where
  exactMatch : Str → Bool

/-- Embedding of `regex::Regex::is_match`: search semantics, the pattern
matches somewhere inside the value (some prefix of some suffix). -/
def Regex.is_match (r : Regex) (v : Str) : Bool :=
  v.tails.any fun t => t.inits.any r.exactMatch

/-- Embedding of `enum MatchField`. -/
inductive MatchField where
  | Class
  | InitialClass
  | Title
  | InitialTitle
  | Tag
  | XdgTag
deriving DecidableEq, Repr

/-- Embedding of `struct Client` (window attributes). -/
structure Client where
  «class» : Str
  address : Str
  initial_class : Option Str
  title : Option Str
  initial_title : Option Str
  tag : Option Str
  xdg_tag : Option Str
deriving DecidableEq, Repr

/-- Embedding of `MatchField::parse`. -/
def MatchField.parse (raw : Str) : Option MatchField :=
  if raw = "class".toList ∨ raw = "c".toList then some .Class
  else if raw = "initial-class".toList ∨ raw = "initialClass".toList then some .InitialClass
  else if raw = "title".toList then some .Title
  else if raw = "initial-title".toList ∨ raw = "initialTitle".toList then some .InitialTitle
  else if raw = "tag".toList then some .Tag
  else if raw = "xdgtag".toList ∨ raw = "xdg-tag".toList ∨ raw = "xdgTag".toList then some .XdgTag
  else none

/-- Embedding of `MatchField::value`. -/
def MatchField.value : MatchField → Client → Option Str
  | .Class, client => some client.«class»
  | .InitialClass, client => client.initial_class
  | .Title, client => client.title
  | .InitialTitle, client => client.initial_title
  | .Tag, client => client.tag
  | .XdgTag, client => client.xdg_tag

/-- Type of the external regex compiler (Rust `Regex::new`). -/
abbrev RegexCompiler := Str → Except String Regex

/-- Embedding of `enum Matcher`. -/
inductive Matcher where
  | Equals (pattern : Str)
  | Contains (pattern : Str)
  | Prefix (pattern : Str)
  | Suffix (pattern : Str)
  | Regex (r : Regex)

/-- Embedding of `Matcher::matches`. -/
def Matcher.matches : Matcher → Str → Bool
  | .Equals pattern, value => value == pattern
  | .Contains pattern, value => strContains value pattern
  | .Prefix pattern, value => pattern.isPrefixOf value
  | .Suffix pattern, value => pattern.isSuffixOf value
  | .Regex r, value => r.is_match value

/-- Embedding of `Matcher::from_tokens`; the regex compiler is the external
collaborator `compile` (Rust `Regex::new`). -/
def Matcher.from_tokens (compile : RegexCompiler)
    (method : Option Str) (pattern : Str) : Except String Matcher :=
  let m := method.getD "equals".toList
  if m = "equals".toList ∨ m = "eq".toList then .ok (.Equals pattern)
  else if m = "contains".toList ∨ m = "substr".toList then .ok (.Contains pattern)
  else if m = "prefix".toList ∨ m = "starts-with".toList ∨ m = "startswith".toList then
    .ok (.Prefix pattern)
  else if m = "suffix".toList ∨ m = "ends-with".toList ∨ m = "endswith".toList then
    .ok (.Suffix pattern)
  else if m = "regex".toList ∨ m = "re".toList then
    match compile pattern with
    | .ok r => .ok (.Regex r)
    | .error err => .error ("Invalid regex `" ++ String.mk pattern ++ "`: " ++ err)
  else .error ("Unsupported match method `" ++ String.mk m ++ "`")

/-- Embedding of `struct MatchCondition`. -/
structure MatchCondition where
  field : MatchField
  matcher : Matcher

/-- Embedding of `MatchCondition::matches`. -/
def MatchCondition.matches (cond : MatchCondition) (client : Client) : Bool :=
  ((cond.field.value client).map cond.matcher.matches).getD false

/-- Embedding of Rust `str::split_once`: split at the first occurrence of a
character, returning the parts before and after it. -/
def splitOnce (c : Char) : Str → Option (Str × Str)
  | [] => none
  | x :: xs =>
      if x = c then some ([], xs)
      else (splitOnce c xs).map fun p => (x :: p.1, p.2)

/-- Embedding of `parse_match_condition`. -/
def parse_match_condition (compile : Str → Except String Regex) (value : Str) :
    Except String MatchCondition :=
  match splitOnce '=' value with
  | none => .error "Expected matcher in the form field[:method]=pattern"
  | some (selector, pattern) =>
    if pattern.isEmpty then .error "Matcher pattern cannot be empty"
    else
      let tokens : Str × Option Str :=
        match splitOnce ':' selector with
        | some (f, m) => (f, some m)
        | none => (selector, none)
      match MatchField.parse tokens.1 with
      | none => .error ("Unsupported match field `" ++ String.mk tokens.1 ++ "`")
      | some field =>
        match Matcher.from_tokens compile tokens.2 pattern with
        | .error e => .error e
        | .ok matcher => .ok (MatchCondition.mk field matcher)

/-- Embedding of `struct Args` (the CLI surface). -/
structure Args where
  «class» : Option Str
  launch : Str
  «matches» : List MatchCondition

/-- Embedding of `Args::build_matchers`. -/
def Args.build_matchers (args : Args) : Except String (List MatchCondition) :=
  let base : List MatchCondition :=
    match args.«class» with
    | some c => [MatchCondition.mk MatchField.Class (Matcher.Equals c)]
    | none => []
  let matchers := base ++ args.«matches»
  if matchers.isEmpty then .error "Provide at least one matcher via --class or --match"
  else .ok matchers

/-- Outcome of the `hyprctl clients -j` invocation in `main`: `unreachable`
covers a spawn error or a non-success exit status (the `_` arm of the Rust
match); `unparseable` covers a successful run whose output fails UTF-8
decoding or JSON parsing (the `?` operators inside the `Ok` arm), carrying
the resulting error message; `ok` carries the decoded window list. -/
inductive ClientsResult where
  | unreachable
  | unparseable (msg : String)
  | ok (clients : List Client)

/-- Point-in-time answers of the window-manager collaborator for one run:
the window-list query and the active-window query (`none` covers any
failure of the latter: spawn error, undecodable or unparseable output). -/
structure Oracle where
  clients : ClientsResult
  activeWindow : Option Client

/-- Externally visible steps of one invocation, in order: the two `hyprctl`
queries and the two dispatched actions. -/
inductive Event where
  | queryClients
  | queryActiveWindow
  | focus (address : Str)
  | launch (cmd : Str)
deriving DecidableEq, Repr

/-- Embedding of `get_current_matching_window`: any failure of the
`hyprctl activewindow -j` pipeline is an error, and a decoded window that
does not satisfy every condition is the dedicated error. -/
def get_current_matching_window (matchers : List MatchCondition)
    (activeWindow : Option Client) : Except String Client :=
  match activeWindow with
  | none => .error "activewindow query failed"
  | some client =>
    if matchers.all fun m => m.matches client then .ok client
    else .error "Current window does not match provided conditions"

/-- Embedding of `main`: returns the trace of external events and the
process outcome (`Except.error` is a non-zero exit with a message). -/
def mainRun (args : Args) (oracle : Oracle) : List Event × Except String Unit :=
  match args.build_matchers with
  | .error e => ([], .error e)
  | .ok matchers =>
    match oracle.clients with
    | .unreachable => ([.queryClients, .launch args.launch], .ok ())
    | .unparseable msg => ([.queryClients], .error msg)
    | .ok clients =>
      let candidates := clients.filter fun c => matchers.all fun m => m.matches c
      match get_current_matching_window matchers oracle.activeWindow with
      | .ok current =>
        match candidates.findIdx? fun c => c.address == current.address with
        | some index =>
          match candidates[(index + 1) % candidates.length]? with
          | some next => ([.queryClients, .queryActiveWindow, .focus next.address], .ok ())
          | none => ([.queryClients, .queryActiveWindow], .ok ())
        | none => ([.queryClients, .queryActiveWindow], .ok ())
      | .error _ =>
        match candidates.head? with
        | some c => ([.queryClients, .queryActiveWindow, .focus c.address], .ok ())
        | none => ([.queryClients, .queryActiveWindow, .launch args.launch], .ok ())

/-! ## Auxiliary lemmas -/

theorem splitOnce_eq_none (c : Char) (l : Str) (h : c ∉ l) : splitOnce c l = none := by
  induction l with
  | nil => rfl
  | cons x xs ih =>
    rw [List.mem_cons] at h
    push_neg at h
    have hx : ¬ x = c := fun hxc => h.1 hxc.symm
    simp [splitOnce, hx, ih h.2]

theorem splitOnce_append (c : Char) (a b : Str) (h : c ∉ a) :
    splitOnce c (a ++ c :: b) = some (a, b) := by
  induction a with
  | nil => simp [splitOnce]
  | cons x xs ih =>
    rw [List.mem_cons] at h
    push_neg at h
    have hx : ¬ x = c := fun hxc => h.1 hxc.symm
    simp [splitOnce, hx, ih h.2]

/-- A trivial regex compiler, instantiating the external collaborator
parameter in concrete evaluations. -/
def compileStub : Str → Except String Regex :=
  fun _ => .ok (Regex.mk fun _ => false)

/-- Claim C6: with a non-empty stored pattern, `equals` matches iff the value
equals the pattern exactly, `contains` iff the pattern is a substring of the
value, `prefix` iff the value starts with the pattern, `suffix` iff the value
ends with the pattern, and `regex` iff the compiled pattern matches somewhere
inside the value (search, not anchored). -/
theorem matcher_matches_semantics (p v : Str) (r : Regex) (hp : p ≠ []) :
    ((Matcher.Equals p).matches v = true ↔ v = p) ∧
    ((Matcher.Contains p).matches v = true ↔ p <:+: v) ∧
    ((Matcher.Prefix p).matches v = true ↔ p <+: v) ∧
    ((Matcher.Suffix p).matches v = true ↔ p <:+ v) ∧
    ((Matcher.Regex r).matches v = true ↔
      ∃ mid, mid <:+: v ∧ r.exactMatch mid = true) := by
  refine ⟨?_, ?_, ?_, ?_, ?_⟩
  · simp [Matcher.matches]
  · show strContains v p = true ↔ p <:+: v
    unfold strContains
    simp only [List.any_eq_true, List.mem_tails, List.isPrefixOf_iff_prefix]
    constructor
    · rintro ⟨t, ht, hpre⟩
      exact List.infix_iff_prefix_suffix.mpr ⟨t, hpre, ht⟩
    · intro h
      obtain ⟨t, hpre, hsuf⟩ := List.infix_iff_prefix_suffix.mp h
      exact ⟨t, hsuf, hpre⟩
  · simp [Matcher.matches, List.isPrefixOf_iff_prefix]
  · simp [Matcher.matches, List.isSuffixOf_iff_suffix]
  · show r.is_match v = true ↔ ∃ mid, mid <:+: v ∧ r.exactMatch mid = true
    unfold Regex.is_match
    simp only [List.any_eq_true, List.mem_tails, List.mem_inits]
    constructor
    · rintro ⟨t, ht, mid, hmid, hm⟩
      exact ⟨mid, List.infix_iff_prefix_suffix.mpr ⟨t, hmid, ht⟩, hm⟩
    · rintro ⟨mid, hinf, hm⟩
      obtain ⟨t, hpre, hsuf⟩ := List.infix_iff_prefix_suffix.mp hinf
      exact ⟨t, hsuf, mid, hpre, hm⟩

theorem matcher_matches_semantics_witness :
    (Matcher.Contains ['a', 'b']).matches ['x', 'a', 'b', 'y'] = true ∧
    (Matcher.Regex (Regex.mk fun s => s == ['b', 'y'])).matches ['x', 'a', 'b', 'y'] = true := by
  have h := matcher_matches_semantics ['a', 'b'] ['x', 'a', 'b', 'y']
    (Regex.mk fun s => s == ['b', 'y']) (by decide)
  refine ⟨h.2.1.mpr ⟨['x'], ['y'], rfl⟩, h.2.2.2.2.mpr ⟨['b', 'y'], ⟨['x', 'a'], [], rfl⟩, by decide⟩⟩

/-- Claim C7: a condition whose selected optional field is absent on the
window record evaluates to false, for every match method. -/
theorem absent_field_never_matches (field : MatchField) (m : Matcher) (client : Client)
    (h : field.value client = none) :
    (MatchCondition.mk field m).matches client = false := by
  simp [MatchCondition.matches, h]

theorem absent_field_never_matches_witness :
    (Regex.mk fun s => s.isEmpty).exactMatch [] = true ∧
    (MatchCondition.mk MatchField.Title (Matcher.Regex (Regex.mk fun s => s.isEmpty))).matches
      (Client.mk ['A'] ['0', 'x', '1'] none none none none none) = false :=
  ⟨by decide,
    absent_field_never_matches MatchField.Title (Matcher.Regex (Regex.mk fun s => s.isEmpty))
      (Client.mk ['A'] ['0', 'x', '1'] none none none none none) rfl⟩

/-- Claim C8: whenever the part after the first `=` of the raw matcher string
is empty, parsing fails with `Matcher pattern cannot be empty`, whatever the
field and method parts are. -/
theorem parse_empty_pattern_error (compile : Str → Except String Regex)
    (value selector : Str) (h : splitOnce '=' value = some (selector, [])) :
    parse_match_condition compile value = .error "Matcher pattern cannot be empty" := by
  simp [parse_match_condition, h]

theorem parse_empty_pattern_error_witness :
    parse_match_condition compileStub "bogus:nosuch=".toList =
      .error "Matcher pattern cannot be empty" :=
  parse_empty_pattern_error compileStub "bogus:nosuch=".toList "bogus:nosuch".toList (by decide)

/-- Claim C10: the non-empty-pattern rule does not apply to the class
shorthand: an empty class shorthand with no explicit matchers builds the
one-element condition set with an `equals` condition on class and empty
pattern. -/
theorem build_matchers_empty_class_shorthand (launch : Str) :
    (Args.mk (some []) launch []).build_matchers =
      .ok [MatchCondition.mk MatchField.Class (Matcher.Equals [])] := rfl

/-- Claim C2 (counterexample): at the raw matcher string `bogus=`, whose
field part `bogus` is an unknown alias, parsing fails with the empty-pattern
error instead, which does not cite the alias. -/
theorem parse_alias_counterexample :
    parse_match_condition compileStub "bogus=".toList =
      .error "Matcher pattern cannot be empty" ∧
    ¬ ("bogus".toList <:+: "Matcher pattern cannot be empty".toList) :=
  ⟨rfl, by decide⟩

/-- Claim C2 (amended): with a non-empty pattern, parsing an unknown field
alias fails with an error citing that alias, and parsing an unknown method
alias together with a known field alias fails with an error citing the
method alias; both failures are independent of the pattern's content.  With
an empty pattern the empty-pattern error preempts both, and with an unknown
field alias the field error preempts the method error. -/
theorem parse_alias_errors (compile : Str → Except String Regex)
    (ftok mtok pat : Str) (hp : pat ≠ [])
    (hfe : ('=' : Char) ∉ ftok) (hfc : (':' : Char) ∉ ftok) (hme : ('=' : Char) ∉ mtok) :
    (MatchField.parse ftok = none →
      parse_match_condition compile (ftok ++ '=' :: pat) =
        .error ("Unsupported match field `" ++ String.mk ftok ++ "`")) ∧
    (∀ fld, MatchField.parse ftok = some fld →
      mtok ≠ "equals".toList → mtok ≠ "eq".toList →
      mtok ≠ "contains".toList → mtok ≠ "substr".toList →
      mtok ≠ "prefix".toList → mtok ≠ "starts-with".toList → mtok ≠ "startswith".toList →
      mtok ≠ "suffix".toList → mtok ≠ "ends-with".toList → mtok ≠ "endswith".toList →
      mtok ≠ "regex".toList → mtok ≠ "re".toList →
      parse_match_condition compile (ftok ++ ':' :: mtok ++ '=' :: pat) =
        .error ("Unsupported match method `" ++ String.mk mtok ++ "`")) := by
  constructor
  · intro hnone
    have hsplit : splitOnce '=' (ftok ++ '=' :: pat) = some (ftok, pat) :=
      splitOnce_append _ _ _ hfe
    have hsel : splitOnce ':' ftok = none := splitOnce_eq_none _ _ hfc
    simp [parse_match_condition, hsplit, hsel, hnone, hp]
  · intro fld hfld h1 h2 h3 h4 h5 h6 h7 h8 h9 h10 h11 h12
    have hin : ('=' : Char) ∉ ftok ++ ':' :: mtok := by
      intro hmem
      rcases List.mem_append.mp hmem with h | h
      · exact hfe h
      · rcases List.mem_cons.mp h with h | h
        · exact absurd h (by decide)
        · exact hme h
    have hsplit : splitOnce '=' ((ftok ++ ':' :: mtok) ++ '=' :: pat) =
        some (ftok ++ ':' :: mtok, pat) := splitOnce_append _ _ _ hin
    rw [List.append_assoc, List.cons_append] at hsplit
    have hsel : splitOnce ':' (ftok ++ ':' :: mtok) = some (ftok, mtok) :=
      splitOnce_append _ _ _ hfc
    have c1 : ¬ (mtok = ['e', 'q', 'u', 'a', 'l', 's'] ∨ mtok = ['e', 'q']) :=
      fun h => h.elim h1 h2
    have c2 : ¬ (mtok = ['c', 'o', 'n', 't', 'a', 'i', 'n', 's'] ∨
        mtok = ['s', 'u', 'b', 's', 't', 'r']) :=
      fun h => h.elim h3 h4
    have c3 : ¬ (mtok = ['p', 'r', 'e', 'f', 'i', 'x'] ∨
        mtok = ['s', 't', 'a', 'r', 't', 's', '-', 'w', 'i', 't', 'h'] ∨
        mtok = ['s', 't', 'a', 'r', 't', 's', 'w', 'i', 't', 'h']) :=
      fun h => h.elim h5 fun h' => h'.elim h6 h7
    have c4 : ¬ (mtok = ['s', 'u', 'f', 'f', 'i', 'x'] ∨
        mtok = ['e', 'n', 'd', 's', '-', 'w', 'i', 't', 'h'] ∨
        mtok = ['e', 'n', 'd', 's', 'w', 'i', 't', 'h']) :=
      fun h => h.elim h8 fun h' => h'.elim h9 h10
    have c5 : ¬ (mtok = ['r', 'e', 'g', 'e', 'x'] ∨ mtok = ['r', 'e']) :=
      fun h => h.elim h11 h12
    simp [parse_match_condition, hsplit, hsel, hp, hfld, Matcher.from_tokens,
      c1, c2, c3, c4, c5]

theorem parse_alias_errors_witness :
    parse_match_condition compileStub "bogus=x".toList =
      .error "Unsupported match field `bogus`" ∧
    parse_match_condition compileStub "title:nosuch=x".toList =
      .error "Unsupported match method `nosuch`" := by
  have hfield := (parse_alias_errors compileStub "bogus".toList "nosuch".toList "x".toList
    (by decide) (by decide) (by decide) (by decide)).1 (by decide)
  have hmethod := (parse_alias_errors compileStub "title".toList "nosuch".toList "x".toList
    (by decide) (by decide) (by decide) (by decide)).2 MatchField.Title (by decide)
    (by decide) (by decide) (by decide) (by decide) (by decide) (by decide) (by decide)
    (by decide) (by decide) (by decide) (by decide) (by decide)
  exact ⟨hfield, hmethod⟩

/-- Claim C9: with no class shorthand and zero explicit matchers, the run
fails with the `Provide at least one matcher` error and the event trace is
empty, so the failure happens before any window-manager query. -/
theorem no_matchers_fails_before_queries (args : Args) (oracle : Oracle)
    (hc : args.«class» = none) (hm : args.«matches» = []) :
    mainRun args oracle =
      ([], .error "Provide at least one matcher via --class or --match") := by
  simp [mainRun, Args.build_matchers, hc, hm]

theorem no_matchers_fails_before_queries_witness :
    mainRun (Args.mk none ['f'] []) (Oracle.mk .unreachable none) =
      ([], .error "Provide at least one matcher via --class or --match") :=
  no_matchers_fails_before_queries (Args.mk none ['f'] []) (Oracle.mk .unreachable none) rfl rfl

/-! ## Concrete fixtures for witnesses -/

/-- A window of class `F` at address `1`. -/
def winA : Client := Client.mk ['F'] ['1'] none none none none none

/-- A window of class `F` at address `2`. -/
def winB : Client := Client.mk ['F'] ['2'] none none none none none

/-- A window of class `F` at address `3`. -/
def winC : Client := Client.mk ['F'] ['3'] none none none none none

/-- A window of an unrelated class `G`. -/
def winOther : Client := Client.mk ['G'] ['9'] none none none none none

/-- An invocation with class shorthand `F` and launch command `f`. -/
def argsFox : Args := Args.mk (some ['F']) ['f'] []

/-- The condition set built by `argsFox`. -/
def foxMatchers : List MatchCondition := [MatchCondition.mk MatchField.Class (Matcher.Equals ['F'])]

/-- Claim C1 (counterexample): with the valid condition set `class = F`, when
`hyprctl clients -j` runs but returns an unparseable response, the run
surfaces the parse error and executes no launch action, against the claim
that it launches and surfaces no error. -/
theorem clients_unparseable_counterexample :
    mainRun (Args.mk (some ['F']) ['f'] [])
        (Oracle.mk (.unparseable "Failed to parse `hyprctl clients -j`") none) =
      ([Event.queryClients], .error "Failed to parse `hyprctl clients -j`") ∧
    Event.launch ['f'] ∉
      (mainRun (Args.mk (some ['F']) ['f'] [])
        (Oracle.mk (.unparseable "Failed to parse `hyprctl clients -j`") none)).1 := by
  refine ⟨rfl, ?_⟩
  intro hmem
  rw [show (mainRun (Args.mk (some ['F']) ['f'] [])
      (Oracle.mk (.unparseable "Failed to parse `hyprctl clients -j`") none)).1 =
      [Event.queryClients] from rfl] at hmem
  exact absurd hmem (by decide)

/-- Claim C1 (amended): with a valid non-empty condition set, if the
window-list command cannot be spawned or exits unsuccessfully, the program
executes the launch action and stops with no error surfaced; if instead the
command runs but its output cannot be decoded, the program surfaces that
decode error and executes no action. -/
theorem clients_failure_behavior (args : Args) (oracle : Oracle)
    (ms : List MatchCondition) (hb : args.build_matchers = .ok ms) :
    (oracle.clients = .unreachable →
      mainRun args oracle = ([.queryClients, .launch args.launch], .ok ())) ∧
    (∀ msg, oracle.clients = .unparseable msg →
      mainRun args oracle = ([.queryClients], .error msg)) := by
  constructor
  · intro h
    simp [mainRun, hb, h]
  · intro msg h
    simp [mainRun, hb, h]

theorem clients_failure_behavior_witness :
    mainRun argsFox (Oracle.mk .unreachable none) =
      ([.queryClients, .launch ['f']], .ok ()) :=
  (clients_failure_behavior argsFox (Oracle.mk .unreachable none) foxMatchers rfl).1 rfl

/-- Claim C3: when the focused window satisfies every condition and its
address occurs at index `i` of the candidate list, the run focuses the
candidate at index `(i + 1) mod length`. -/
theorem cycle_to_next_candidate (args : Args) (oracle : Oracle)
    (ms : List MatchCondition) (clients : List Client) (f next : Client) (i : Nat)
    (hb : args.build_matchers = .ok ms)
    (hc : oracle.clients = .ok clients)
    (hf : oracle.activeWindow = some f)
    (hall : (ms.all fun m => m.matches f) = true)
    (hidx : ((clients.filter fun c => ms.all fun m => m.matches c).findIdx?
        fun c => c.address == f.address) = some i)
    (hnext : (clients.filter fun c => ms.all fun m => m.matches c)[(i + 1) %
        (clients.filter fun c => ms.all fun m => m.matches c).length]? = some next) :
    mainRun args oracle =
      ([.queryClients, .queryActiveWindow, .focus next.address], .ok ()) := by
  simp [mainRun, hb, hc, get_current_matching_window, hf, hall, hidx, hnext]

theorem cycle_to_next_candidate_witness :
    mainRun argsFox (Oracle.mk (.ok [winA, winB, winC]) (some winB)) =
      ([.queryClients, .queryActiveWindow, .focus ['3']], .ok ()) ∧
    mainRun argsFox (Oracle.mk (.ok [winA, winB, winC]) (some winC)) =
      ([.queryClients, .queryActiveWindow, .focus ['1']], .ok ()) :=
  ⟨cycle_to_next_candidate argsFox (Oracle.mk (.ok [winA, winB, winC]) (some winB))
      foxMatchers [winA, winB, winC] winB winC 1 rfl rfl rfl rfl rfl rfl,
    cycle_to_next_candidate argsFox (Oracle.mk (.ok [winA, winB, winC]) (some winC))
      foxMatchers [winA, winB, winC] winC winA 2 rfl rfl rfl rfl rfl rfl⟩

/-- Claim C4: when the focus query fails or the focused window does not
satisfy every condition, the run is not an error; it focuses the first
candidate when one exists and launches otherwise. -/
theorem focus_absent_raise_or_launch (args : Args) (oracle : Oracle)
    (ms : List MatchCondition) (clients : List Client)
    (hb : args.build_matchers = .ok ms)
    (hc : oracle.clients = .ok clients)
    (habsent : oracle.activeWindow = none ∨
      ∃ f, oracle.activeWindow = some f ∧ (ms.all fun m => m.matches f) = false) :
    (∀ c, (clients.filter fun c => ms.all fun m => m.matches c).head? = some c →
      mainRun args oracle = ([.queryClients, .queryActiveWindow, .focus c.address], .ok ())) ∧
    ((clients.filter fun c => ms.all fun m => m.matches c) = [] →
      mainRun args oracle =
        ([.queryClients, .queryActiveWindow, .launch args.launch], .ok ())) := by
  have herr : ∃ e, get_current_matching_window ms oracle.activeWindow = .error e := by
    rcases habsent with h | ⟨f, hf, hnot⟩
    · exact ⟨"activewindow query failed", by simp [get_current_matching_window, h]⟩
    · exact ⟨"Current window does not match provided conditions",
        by simp [get_current_matching_window, hf, hnot]⟩
  obtain ⟨e, herr⟩ := herr
  constructor
  · intro c hhead
    simp [mainRun, hb, hc, herr, hhead]
  · intro hempty
    simp [mainRun, hb, hc, herr, hempty]

theorem focus_absent_raise_or_launch_witness :
    mainRun argsFox (Oracle.mk (.ok [winA, winB]) (some winOther)) =
      ([.queryClients, .queryActiveWindow, .focus ['1']], .ok ()) ∧
    mainRun argsFox (Oracle.mk (.ok [winOther]) none) =
      ([.queryClients, .queryActiveWindow, .launch ['f']], .ok ()) :=
  ⟨(focus_absent_raise_or_launch argsFox (Oracle.mk (.ok [winA, winB]) (some winOther))
      foxMatchers [winA, winB] rfl rfl (Or.inr ⟨winOther, rfl, rfl⟩)).1 winA rfl,
    (focus_absent_raise_or_launch argsFox (Oracle.mk (.ok [winOther]) none)
      foxMatchers [winOther] rfl rfl (Or.inl rfl)).2 rfl⟩

/-- Claim C5: when the focused window satisfies every condition but its
address is not found among the candidates, no focus and no launch action is
issued. -/
theorem focused_match_missing_no_action (args : Args) (oracle : Oracle)
    (ms : List MatchCondition) (clients : List Client) (f : Client)
    (hb : args.build_matchers = .ok ms)
    (hc : oracle.clients = .ok clients)
    (hf : oracle.activeWindow = some f)
    (hall : (ms.all fun m => m.matches f) = true)
    (hidx : ((clients.filter fun c => ms.all fun m => m.matches c).findIdx?
        fun c => c.address == f.address) = none) :
    mainRun args oracle = ([.queryClients, .queryActiveWindow], .ok ()) := by
  simp [mainRun, hb, hc, get_current_matching_window, hf, hall, hidx]

theorem focused_match_missing_no_action_witness :
    mainRun argsFox (Oracle.mk (.ok [winA]) (some winB)) =
      ([.queryClients, .queryActiveWindow], .ok ()) :=
  focused_match_missing_no_action argsFox (Oracle.mk (.ok [winA]) (some winB))
    foxMatchers [winA] winB rfl rfl rfl rfl rfl
